import Mathlib

/-!
Verification of the rs-streamer SFU core against its specification.

The Rust sources are shallowly embedded: hash maps become association
lists, machine integers become `Nat` (RTP bytes stay below 256 and the
source's `u8` operations never overflow), asynchronous steps become
explicit step functions over outcome values, and fallible operations
return `Option`/`Except`.  Definitions carry the source's names.  Parts
of the repository that are referenced by the sources at hand but whose
defining module is absent (the set-valued group router, the media table,
the RTP header parser, the client state enum) are modelled from the
specification and say so in their doc comments.
-/

namespace RsStreamer

/-- Remote UDP socket address (`std::net::SocketAddr`), reduced to the
identity-with-equality role it plays in the core. -/
structure SocketAddr where
  ip : Nat
  port : Nat
deriving DecidableEq, Repr

/-- Association-list reading of `HashMap::get`. -/
def alGet {κ ν : Type} [DecidableEq κ] : List (κ × ν) → κ → Option ν
  | [], _ => none
  | p :: rest, k => if p.1 = k then some p.2 else alGet rest k

/-- Association-list reading of `HashMap::remove` (key dropped, other
entries kept). -/
def alRemove {κ ν : Type} [DecidableEq κ] (l : List (κ × ν)) (k : κ) : List (κ × ν) :=
  l.filter fun p => decide (p.1 ≠ k)

/-- Update the value stored at a key, leaving everything else alone. -/
def alMapAt {κ ν : Type} [DecidableEq κ] (l : List (κ × ν)) (k : κ) (f : ν → ν) :
    List (κ × ν) :=
  l.map fun p => if p.1 = k then (p.1, f p.2) else p

/-! ### src/client/group.rs — the single-sender group store -/

/-- Embeds `pub type GroupsStorage = HashMap<usize, SocketAddr>;`. -/
abbrev GroupsStorage := List (Nat × SocketAddr)

/-- Embeds `pub struct Group`, the single-sender group store. -/
structure Group where
  groups_storage : GroupsStorage
deriving DecidableEq, Repr

/-- Embeds `Group::insert_or_get_sender`, i.e.
`*self.groups_storage.entry(group_id).or_insert(addr)`.
Returns the stored sender for the group, inserting `addr` first when the
group is new; the pair carries the (possibly updated) store. -/
def Group.insert_or_get_sender (s : Group) (group_id : Nat) (addr : SocketAddr) :
    SocketAddr × Group :=
  match alGet s.groups_storage group_id with
  | some a => (a, s)
  | none => (addr, ⟨s.groups_storage ++ [(group_id, addr)]⟩)

/-- Embeds `Group::remove_sender`: rebuilds the store keeping exactly the
entries whose stored address differs from `addr`. -/
def Group.remove_sender (s : Group) (addr : SocketAddr) : Group :=
  ⟨s.groups_storage.filter fun p => decide (addr ≠ p.2)⟩

/-! ### src/client/actor.rs — the payload-type rewrite -/

/-- Embeds `const fn calculate_payload(marker: bool, payload: u8) -> u8`:
`payload | ((marker as u8) << 7)`.  `u8` arithmetic never overflows
here, so `Nat` bit operations embed it exactly. -/
def calculate_payload (marker : Bool) (payload : Nat) : Nat :=
  payload ||| ((if marker then 1 else 0) <<< 7)

/-! ### src/server/client.rs — SRTP key derivation (`get_srtp`) -/

/-- The `srtp::SsrcType` variants used by the source. -/
inductive SsrcType where
  | AnyInbound
  | AnyOutbound
deriving DecidableEq, Repr

/-- The `srtp::CryptoPolicy` variant used by the source. -/
inductive CryptoPolicy where
  | AesCm128HmacSha1Bit80
deriving DecidableEq, Repr

/-- Embeds `CryptoPolicy::master_len`: master key (16 bytes) plus master salt
(14 bytes) for AES_CM_128_HMAC_SHA1_80. -/
def CryptoPolicy.master_len : CryptoPolicy → Nat
  | .AesCm128HmacSha1Bit80 => 30

/-- Client and server halves of the exported keying material. -/
structure KeyingMaterialPair where
  client : List Nat
  server : List Nat
deriving DecidableEq, Repr

/-- Embeds `CryptoPolicy::extract_keying_material` of the srtp crate.  RFC 5764
lays the exported block out as client key, server key, client salt,
server salt; each half is its key followed by its salt. -/
def CryptoPolicy.extract_keying_material (p : CryptoPolicy) (buf : List Nat) :
    KeyingMaterialPair :=
  match p with
  | .AesCm128HmacSha1Bit80 =>
      let key_len := 16
      let salt_len := 14
      { client := buf.take key_len ++ (buf.drop (2 * key_len)).take salt_len,
        server := (buf.drop key_len).take key_len ++
          (buf.drop (2 * key_len + salt_len)).take salt_len }

/-- An SRTP session as `Srtp::new` records it: SSRC policy, the two
crypto policies, and the keying material handed to it. -/
structure Srtp where
  ssrc_type : SsrcType
  rtp_policy : CryptoPolicy
  rtcp_policy : CryptoPolicy
  key : List Nat
deriving DecidableEq, Repr

/-- Embeds `Srtp::new(ssrc_type, rtp_policy, rtcp_policy, key)`. -/
def Srtp.new (ssrc_type : SsrcType) (rtp_policy rtcp_policy : CryptoPolicy)
    (key : List Nat) : Srtp :=
  ⟨ssrc_type, rtp_policy, rtcp_policy, key⟩

/-- The DTLS engine after a completed handshake, reduced to the one
capability `get_srtp` uses: `SSL::export_keying_material(buf, label,
context)`, a function of the label, the optional context, and the
requested length. -/
structure SslRef where
  export_keying_material : String → Option (List Nat) → Nat → List Nat

/-- Embeds `fn get_srtp(ssl: &SslRef) -> Result<(Srtp, Srtp), ErrorStack>` from
src/server/client.rs: export `2 × master_len` bytes under label
EXTRACTOR-dtls_srtp with no context, split them, and build the inbound
session from the client half and the outbound session from the server
half. -/
def get_srtp (ssl : SslRef) : Srtp × Srtp :=
  let rtp_policy := CryptoPolicy.AesCm128HmacSha1Bit80
  let rtcp_policy := CryptoPolicy.AesCm128HmacSha1Bit80
  let dtls_buf := ssl.export_keying_material "EXTRACTOR-dtls_srtp" none
    (rtp_policy.master_len * 2)
  let pair := rtp_policy.extract_keying_material dtls_buf
  (Srtp.new SsrcType.AnyInbound rtp_policy rtcp_policy pair.client,
   Srtp.new SsrcType.AnyOutbound rtp_policy rtcp_policy pair.server)

/-! ### Client records and registry (src/client/clients.rs is absent) -/

/-- Modelled from the spec: `ClientState` of the absent module
src/client/clients.rs.  §3 gives the states New, Connected, Shutdown,
with the SRTP inbound and outbound sessions present iff Connected;
src/client/actor.rs matches the variants as `New(_)`,
`Connected(_, _)`, `Shutdown`. -/
inductive ClientState where
  | New
  | Connected (srtp_incoming srtp_outcoming : Srtp)
  | Shutdown
deriving DecidableEq, Repr

/-- Modelled from the spec: the media-negotiation table of the absent
module src/sdp/media.rs — an ordered list of (payload type, codec name)
pairs with derived lookups, names stored lowercase (§3). -/
structure Media where
  media_list : List (Nat × String)
deriving DecidableEq, Repr

/-- Modelled from the spec: pt → codec-name lookup (`get_name`). -/
def Media.get_name (m : Media) (pt : Nat) : Option String :=
  alGet m.media_list pt

/-- Modelled from the spec: codec-name → pt lookup (`get_id`). -/
def Media.get_id (m : Media) (name : String) : Option Nat :=
  (m.media_list.find? fun p => decide (p.2 = name)).map fun p => p.1

/-- Modelled from the spec: the per-client record of the absent module
src/client/clients.rs — DTLS state plus an optional media table (§3);
the byte channels live outside this model. -/
structure ClientRecord where
  state : ClientState
  media : Option Media
deriving DecidableEq, Repr

/-- Modelled from the spec: `ClientRef::default()` — a fresh record in
state New with no media table (§3 Lifecycle). -/
def ClientRecord.default : ClientRecord :=
  ⟨ClientState.New, none⟩

/-- Modelled from the spec: the set-valued group router whose methods
`insert_client`, `get_addressess` and `remove_client` are called from
src/client/actor.rs but absent from src/ (src/client/group.rs holds
only the single-sender store).  §4.6 prescribes a many-to-one
addr → group_id map combined with its group_id → set-of-addrs inverse;
the addr → group_id association list is primary here and the inverse is
derived. -/
structure GroupRouter where
  clients : List (SocketAddr × Nat)
deriving DecidableEq, Repr

/-- Modelled from the spec: join a group; a client belongs to at most
one group and membership is append-only (§3), so an already grouped
address keeps its group. -/
def GroupRouter.insert_client (r : GroupRouter) (group_id : Nat) (addr : SocketAddr) :
    GroupRouter :=
  match alGet r.clients addr with
  | some _ => r
  | none => ⟨r.clients ++ [(addr, group_id)]⟩

/-- Modelled from the spec: `members(addr)` — the addresses sharing
`addr`'s group excluding `addr` itself, or absent if `addr` is
ungrouped (§4.6). -/
def GroupRouter.get_addressess (r : GroupRouter) (addr : SocketAddr) :
    Option (List SocketAddr) :=
  match alGet r.clients addr with
  | none => none
  | some g =>
      some ((r.clients.filter fun p => decide (p.2 = g ∧ p.1 ≠ addr)).map fun p => p.1)

/-- Modelled from the spec: `remove(addr)` returns whether membership
existed and drops the address from its group (§4.6). -/
def GroupRouter.remove_client (r : GroupRouter) (addr : SocketAddr) :
    Bool × GroupRouter :=
  ((alGet r.clients addr).isSome, ⟨alRemove r.clients addr⟩)

/-- The state the `ClientActor` of src/client/actor.rs owns: the client
registry and the group router. -/
structure ClientActorState where
  client_storage : List (SocketAddr × ClientRecord)
  groups : GroupRouter
deriving DecidableEq, Repr

/-- Embeds `Handler<DeleteMessage> for ClientActor`:
`self.client_storage.remove(&addr).and_then(|_| if
self.groups.remove_client(addr) { Some(()) } else { None }).is_some()`.
The registry entry is removed whenever present; the group membership is
removed only then; the reported boolean is the conjunction of both
existences. -/
def handleDelete (st : ClientActorState) (addr : SocketAddr) : Bool × ClientActorState :=
  match alGet st.client_storage addr with
  | none => (false, st)
  | some _ =>
      let storage := alRemove st.client_storage addr
      let (had_group, groups) := st.groups.remove_client addr
      (had_group, ⟨storage, groups⟩)

/-! ### src/server/client.rs — `connect` and the handshake deadline -/

/-- The `std::io::ErrorKind` values the embedded code distinguishes. -/
inductive IoErrorKind where
  | TimedOut
  | UnexpectedEof
  | ConnectionAborted
  | WriteZero
deriving DecidableEq, Repr

/-- Outcome of `accept(&ssl_acceptor, ssl_state)` under the 10 s
`timeout`: the deadline elapsed, the handshake failed, or it completed
yielding the DTLS engine. -/
inductive AcceptOutcome where
  | timeout
  | handshakeError
  | success (ssl : SslRef)

/-- The hard handshake deadline of `connect`: `Duration::from_secs(10)`. -/
def handshakeTimeoutSecs : Nat := 10

/-- The externally visible actions `connect` takes before the handshake
completes, in program order. -/
inductive ConnectEvent where
  | sendIncoming (bytes : List Nat)
  | acceptBegin
deriving DecidableEq, Repr

/-- Embeds `pub async fn connect(..)` from src/server/client.rs: first send the
initial datagram into the incoming channel, then run `accept` under the
10 s timeout (an elapsed deadline propagates as an error through `?`, a
failed handshake becomes ConnectionAborted), then derive both SRTP
sessions via `get_srtp`.  The first component records the I/O events in
program order. -/
def connect (handshake : List Nat) (outcome : AcceptOutcome) :
    List ConnectEvent × Except IoErrorKind (Srtp × Srtp) :=
  let trace := [ConnectEvent.sendIncoming handshake, ConnectEvent.acceptBegin]
  match outcome with
  | .timeout => (trace, Except.error IoErrorKind.TimedOut)
  | .handshakeError => (trace, Except.error IoErrorKind.ConnectionAborted)
  | .success ssl => (trace, Except.ok (get_srtp ssl))

/-- Replace the state stored for an address, leaving other records and
the record's media table alone. -/
def setClientState (storage : List (SocketAddr × ClientRecord)) (addr : SocketAddr)
    (s : ClientState) : List (SocketAddr × ClientRecord) :=
  alMapAt storage addr fun r => ⟨s, r.media⟩

/-- The `ClientState::New` arm of `Handler<WebRtcRequest>` for DTLS
datagrams (src/client/actor.rs): run the handshake driver; on error the
actor sends itself `DeleteMessage(addr)`.  The success transition is
modelled from the spec (§4.2), the connector module that stores the
result being absent from src/: the client becomes Connected carrying
both derived SRTP sessions. -/
def dtlsNewStep (st : ClientActorState) (addr : SocketAddr) (handshake : List Nat)
    (outcome : AcceptOutcome) : ClientActorState :=
  match (connect handshake outcome).2 with
  | Except.error _ => (handleDelete st addr).2
  | Except.ok (srtp_incoming, srtp_outcoming) =>
      ⟨setClientState st.client_storage addr
        (ClientState.Connected srtp_incoming srtp_outcoming), st.groups⟩

/-- The post-handshake read deadline: `Duration::from_millis(10)`. -/
def postHandshakeTimeoutMillis : Nat := 10

/-- Embeds `timeout(10 ms, extract_dtls(..)).map_err(TimedOut).and_then(|r| r)`
from the Connected arm of src/client/actor.rs; `none` stands for an
elapsed deadline. -/
def extract_result (outcome : Option (Except IoErrorKind Nat)) : Except IoErrorKind Nat :=
  match outcome with
  | none => Except.error IoErrorKind.TimedOut
  | some r => r

/-- The `ClientState::Connected` arm of `Handler<WebRtcRequest>` for
DTLS datagrams (src/client/actor.rs): only `matches!(result, Ok(0))`
makes the actor send itself `DeleteMessage(addr)`; every other result —
timeout included — changes nothing. -/
def dtlsConnectedStep (st : ClientActorState) (addr : SocketAddr)
    (outcome : Option (Except IoErrorKind Nat)) : ClientActorState :=
  match extract_result outcome with
  | Except.ok 0 => (handleDelete st addr).2
  | _ => st

/-! ### src/client/stream.rs — the duplex byte channel -/

/-- Poll-style result of a non-blocking read. -/
inductive Poll (α : Type) where
  | ready (value : α)
  | pending
deriving DecidableEq, Repr

/-- The read half of the duplex byte channel: the queued datagrams and
whether the write half is gone. -/
structure IncomingReader where
  queue : List (List Nat)
  closed : Bool
deriving DecidableEq, Repr

/-- Embeds `ClientSslPackets::poll_read` (src/client/stream.rs, likewise
src/server/client.rs): pop the next queued datagram; if the caller's
buffer is shorter, fail with UnexpectedEof before any copy; otherwise
copy the whole datagram into the buffer's prefix and return its length.
An empty closed channel reports ConnectionAborted; an empty open one is
pending.  The result carries the buffer contents after the call and the
reader state after the call. -/
def poll_read (r : IncomingReader) (buf : List Nat) :
    Poll (Except IoErrorKind Nat × List Nat) × IncomingReader :=
  match r.queue with
  | message :: rest =>
      if buf.length < message.length then
        (Poll.ready (Except.error IoErrorKind.UnexpectedEof, buf), ⟨rest, r.closed⟩)
      else
        (Poll.ready (Except.ok message.length, message ++ buf.drop message.length),
          ⟨rest, r.closed⟩)
  | [] =>
      if r.closed then
        (Poll.ready (Except.error IoErrorKind.ConnectionAborted, buf), r)
      else
        (Poll.pending, r)

/-! ### src/client/actor.rs — the RTP fan-out destination map -/

/-- Modelled from the spec: `RtpHeader::from_buf` of the absent module
src/rtp/core.rs — packets shorter than the 12-byte fixed header fail to
parse; the marker is bit 7 of byte 1 and the payload type its low 7
bits (§4.4, §8). -/
structure RtpHeader where
  marker : Bool
  payload : Nat
deriving DecidableEq, Repr

/-- Modelled from the spec: parse the fixed RTP header (§4.4). -/
def RtpHeader.from_buf (message : List Nat) : Option RtpHeader :=
  if message.length < 12 then none
  else
    let b := message.getD 1 0
    some ⟨(b >>> 7) &&& 1 == 1, b &&& 0x7F⟩

/-- The source-side codec lookup of the Rtc arm (src/client/actor.rs):
the source's media table (`entry(addr).or_default()` yields a fresh
default record when the address is unknown), then the parsed header,
then the codec name the source negotiated for the packet's payload
type. -/
def sourceCodec (storage : List (SocketAddr × ClientRecord)) (addr : SocketAddr)
    (message : List Nat) : Option (Bool × String) :=
  ((alGet storage addr).getD ClientRecord.default).media.bind fun m =>
    (RtpHeader.from_buf message).bind fun r =>
      (m.get_name r.payload).map fun name => (r.marker, name)

/-- The destination map the RTP (non-RTCP) Rtc arm builds
(src/client/actor.rs): for each address the router yields, require its
record, its media table, the source codec, and the member's payload
type for that codec — any missing piece drops the member from the map;
survivors carry the rewritten payload byte. -/
def rtpDestinations (storage : List (SocketAddr × ClientRecord)) (groups : GroupRouter)
    (addr : SocketAddr) (message : List Nat) : Option (List (SocketAddr × Nat)) :=
  (groups.get_addressess addr).map fun addresses =>
    addresses.filterMap fun g_addr =>
      (alGet storage g_addr).bind fun cr =>
        cr.media.bind fun media =>
          (sourceCodec storage addr message).bind fun codec =>
            (media.get_id codec.2).map fun new_payload =>
              (g_addr, calculate_payload codec.1 new_payload)

/-! ## Theorems -/

/-! ### Association-list lemmas -/

theorem alGet_alRemove_self {κ ν : Type} [DecidableEq κ] (l : List (κ × ν)) (k : κ) :
    alGet (alRemove l k) k = none := by
  induction l with
  | nil => rfl
  | cons p rest ih =>
      by_cases hp : p.1 = k
      · simp [alRemove, List.filter, hp] at ih ⊢
        exact ih
      · simp [alRemove, List.filter, hp] at ih ⊢
        simpa [alGet, hp] using ih

theorem alGet_append_single {κ ν : Type} [DecidableEq κ] (l : List (κ × ν)) (k : κ) (v : ν)
    (h : alGet l k = none) : alGet (l ++ [(k, v)]) k = some v := by
  induction l with
  | nil => simp [alGet]
  | cons p rest ih =>
      by_cases hp : p.1 = k
      · simp [alGet, hp] at h
      · simp [alGet, hp] at h ⊢
        exact ih h

theorem alGet_alMapAt_self {κ ν : Type} [DecidableEq κ] (l : List (κ × ν)) (k : κ)
    (f : ν → ν) (v : ν) (h : alGet l k = some v) :
    alGet (alMapAt l k f) k = some (f v) := by
  induction l with
  | nil => simp [alGet] at h
  | cons p rest ih =>
      by_cases hp : p.1 = k
      · simp [alGet, hp] at h
        simp [alMapAt, alGet, hp, h]
      · simp [alGet, hp] at h
        simpa [alMapAt, alGet, hp] using ih h

/-! ### Claim theorems -/

/-- C1 (amended): for payload types below 128 — the 7-bit range RTP
admits — the rewritten byte has the marker in bit 7, the destination
payload type in the low 7 bits, and equals `(m << 7) | (pt & 0x7F)`.
The unamended claim over all `u8` values fails because the source does
not mask `payload` with `0x7F`. -/
theorem calculate_payload_bits :
    ∀ (m : Bool), ∀ pt : Nat, pt < 128 →
      calculate_payload m pt >>> 7 = (if m then 1 else 0) ∧
      calculate_payload m pt &&& 0x7F = pt ∧
      calculate_payload m pt = ((if m then 1 else 0) <<< 7) ||| (pt &&& 0x7F) := by
  decide

/-- C1 witness: the amended property instantiated at marker set and
payload type 96. -/
theorem calculate_payload_bits_witness :
    (96 : Nat) < 128 ∧ calculate_payload true 96 &&& 0x7F = 96 :=
  ⟨by decide, (calculate_payload_bits true 96 (by decide)).2.1⟩

/-- C1 counterexample: at marker clear and table value 128 the rewritten
byte is 128, whose bit 7 is set and whose low bits are 0 — the claimed
identities fail for that `u8` input. -/
theorem calculate_payload_high_pt :
    ¬ (calculate_payload false 128 >>> 7 = (if false then 1 else 0) ∧
       calculate_payload false 128 &&& 0x7F = 128 ∧
       calculate_payload false 128 = ((if false then 1 else 0) <<< 7) ||| (128 &&& 0x7F)) := by
  decide

/-- C10: the single-sender store maps each group id to exactly one
address: a first `insert_or_get_sender` stores and returns its argument,
any later call returns the stored sender and leaves the store unchanged,
and `remove_sender a` deletes exactly the entries whose stored address
is `a`. -/
theorem group_single_sender (s : Group) (g : Nat) (a b : SocketAddr) :
    (alGet s.groups_storage g = none →
      (s.insert_or_get_sender g a).1 = a ∧
      alGet (s.insert_or_get_sender g a).2.groups_storage g = some a) ∧
    (∀ c, alGet s.groups_storage g = some c →
      s.insert_or_get_sender g b = (c, s)) ∧
    (∀ g' x, (g', x) ∈ (s.remove_sender a).groups_storage ↔
      ((g', x) ∈ s.groups_storage ∧ x ≠ a)) := by
  refine ⟨?_, ?_, ?_⟩
  · intro h
    constructor
    · simp [Group.insert_or_get_sender, h]
    · simp only [Group.insert_or_get_sender, h]
      exact alGet_append_single _ _ _ h
  · intro c h
    simp [Group.insert_or_get_sender, h]
  · intro g' x
    simp [Group.remove_sender, List.mem_filter]
    intro _
    constructor
    · intro h; exact fun hx => h hx.symm
    · intro h; exact fun hx => h hx.symm

/-- C10 witness: on the concrete store holding group 7 → (1,1), a fresh
insert into group 9 stores and returns (2,2), a repeated insert into
group 7 returns (1,1) unchanged, and removing sender (1,1) keeps exactly
the group-9 entry. -/
theorem group_single_sender_witness :
    ((Group.mk [(7, ⟨1, 1⟩)]).insert_or_get_sender 9 ⟨2, 2⟩).1 = ⟨2, 2⟩ ∧
    (Group.mk [(7, ⟨1, 1⟩), (9, ⟨2, 2⟩)]).insert_or_get_sender 7 ⟨3, 3⟩ =
      (⟨1, 1⟩, Group.mk [(7, ⟨1, 1⟩), (9, ⟨2, 2⟩)]) ∧
    ((9, (⟨2, 2⟩ : SocketAddr)) ∈
      ((Group.mk [(7, ⟨1, 1⟩), (9, ⟨2, 2⟩)]).remove_sender ⟨1, 1⟩).groups_storage ∧
      ((2, 2) : Nat × Nat) = (2, 2)) := by
  refine ⟨(group_single_sender (Group.mk [(7, ⟨1, 1⟩)]) 9 ⟨2, 2⟩ ⟨2, 2⟩).1 (by decide) |>.1,
          (group_single_sender (Group.mk [(7, ⟨1, 1⟩), (9, ⟨2, 2⟩)]) 7 ⟨2, 2⟩ ⟨3, 3⟩).2.1
            ⟨1, 1⟩ (by decide), ?_, rfl⟩
  exact ((group_single_sender (Group.mk [(7, ⟨1, 1⟩), (9, ⟨2, 2⟩)]) 9 ⟨1, 1⟩ ⟨1, 1⟩).2.2
    9 ⟨2, 2⟩).2 ⟨by decide, by decide⟩

/-- C4: the keying material comes from the exporter under label
EXTRACTOR-dtls_srtp with no context and length 2 × master_len; its
client half keys the AnyInbound session and its server half the
AnyOutbound session, both under AES_CM_128_HMAC_SHA1_80 for RTP and
for RTCP. -/
theorem get_srtp_exporter (ssl : SslRef) :
    get_srtp ssl =
      (Srtp.new SsrcType.AnyInbound CryptoPolicy.AesCm128HmacSha1Bit80
        CryptoPolicy.AesCm128HmacSha1Bit80
        (CryptoPolicy.AesCm128HmacSha1Bit80.extract_keying_material
          (ssl.export_keying_material "EXTRACTOR-dtls_srtp" none
            (2 * CryptoPolicy.AesCm128HmacSha1Bit80.master_len))).client,
       Srtp.new SsrcType.AnyOutbound CryptoPolicy.AesCm128HmacSha1Bit80
        CryptoPolicy.AesCm128HmacSha1Bit80
        (CryptoPolicy.AesCm128HmacSha1Bit80.extract_keying_material
          (ssl.export_keying_material "EXTRACTOR-dtls_srtp" none
            (2 * CryptoPolicy.AesCm128HmacSha1Bit80.master_len))).server) :=
  rfl

/-- C2: the fan-out's destination set `get_addressess a` never contains
`a` itself — it is exactly the other members of `a`'s group — and it is
absent when `a` belongs to no group. -/
theorem get_addressess_excludes_self (r : GroupRouter) (a : SocketAddr) :
    (alGet r.clients a = none → r.get_addressess a = none) ∧
    (∀ l, r.get_addressess a = some l →
      a ∉ l ∧ ∃ g, alGet r.clients a = some g ∧
        ∀ d, (d ∈ l ↔ (d ≠ a ∧ (d, g) ∈ r.clients))) := by
  cases h : alGet r.clients a with
  | none =>
      refine ⟨fun _ => ?_, fun l hl => ?_⟩
      · simp [GroupRouter.get_addressess, h]
      · simp [GroupRouter.get_addressess, h] at hl
  | some g =>
      refine ⟨fun hn => ?_, fun l hl => ?_⟩
      · simp [h] at hn
      · have hl' : l = (r.clients.filter fun p => decide (p.2 = g ∧ p.1 ≠ a)).map
            fun p => p.1 := by
          simp only [GroupRouter.get_addressess, h, Option.some.injEq] at hl
          exact hl.symm
        subst hl'
        refine ⟨?_, g, rfl, ?_⟩
        · intro ha
          simp only [List.mem_map, List.mem_filter, decide_eq_true_eq] at ha
          obtain ⟨q, ⟨-, -, hne⟩, hq⟩ := ha
          exact hne hq
        · intro d
          constructor
          · intro hd
            simp only [List.mem_map, List.mem_filter, decide_eq_true_eq] at hd
            obtain ⟨q, ⟨hqmem, hqg, hqa⟩, hq1⟩ := hd
            subst hq1
            refine ⟨hqa, ?_⟩
            have hq : q = (q.1, g) := by rw [← hqg]
            rwa [← hq]
          · rintro ⟨hda, hdg⟩
            refine List.mem_map.mpr ⟨(d, g), List.mem_filter.mpr ⟨hdg, ?_⟩, rfl⟩
            simp [hda]

/-- C2 witness: in the two-member group holding (1,1) and (2,2), the
destination set of (1,1) is exactly the other member. -/
theorem get_addressess_excludes_self_witness :
    ((⟨1, 1⟩ : SocketAddr) ∉ ([⟨2, 2⟩] : List SocketAddr)) ∧
    (GroupRouter.mk [(⟨1, 1⟩, 5), (⟨2, 2⟩, 5)]).get_addressess ⟨1, 1⟩ = some [⟨2, 2⟩] :=
  ⟨((get_addressess_excludes_self (GroupRouter.mk [(⟨1, 1⟩, 5), (⟨2, 2⟩, 5)]) ⟨1, 1⟩).2
      [⟨2, 2⟩] (by decide)).1, by decide⟩

/-- C3 counterexample: a client present in the registry but in no group
— a reachable state, since grouping needs a separate GroupId message —
makes the first `DeleteMessage` return `false`, not `true` as claimed:
the handler conjoins registry existence with group-membership
existence. -/
theorem delete_ungrouped_returns_false :
    (alGet (ClientActorState.mk [(⟨1, 1⟩, ClientRecord.default)] ⟨[]⟩).client_storage
      ⟨1, 1⟩).isSome = true ∧
    (handleDelete (ClientActorState.mk [(⟨1, 1⟩, ClientRecord.default)] ⟨[]⟩) ⟨1, 1⟩).1 =
      false := by
  decide

/-- C3 (amended): for an address present in the registry AND belonging
to a group, the first `DeleteMessage` returns true and removes both the
client record and the group membership, and an immediately following
second one returns false; in general the returned boolean is true
exactly when a registry entry existed and the address had a group
membership. -/
theorem handleDelete_removes_and_reports (st : ClientActorState) (a : SocketAddr)
    (hreg : (alGet st.client_storage a).isSome = true)
    (hgrp : (alGet st.groups.clients a).isSome = true) :
    (handleDelete st a).1 = true ∧
    alGet (handleDelete st a).2.client_storage a = none ∧
    alGet (handleDelete st a).2.groups.clients a = none ∧
    (handleDelete (handleDelete st a).2 a).1 = false ∧
    (∀ s : ClientActorState, (handleDelete s a).1 =
      ((alGet s.client_storage a).isSome && (alGet s.groups.clients a).isSome)) := by
  obtain ⟨r, hr⟩ := Option.isSome_iff_exists.mp hreg
  have h1 : handleDelete st a =
      ((alGet st.groups.clients a).isSome,
        ⟨alRemove st.client_storage a, ⟨alRemove st.groups.clients a⟩⟩) := by
    simp [handleDelete, hr, GroupRouter.remove_client]
  refine ⟨?_, ?_, ?_, ?_, ?_⟩
  · rw [h1]; exact hgrp
  · rw [h1]; exact alGet_alRemove_self _ _
  · rw [h1]; exact alGet_alRemove_self _ _
  · rw [h1]
    simp [handleDelete, alGet_alRemove_self]
  · intro s
    cases hs : alGet s.client_storage a with
    | none => simp [handleDelete, hs]
    | some r' => simp [handleDelete, hs, GroupRouter.remove_client]

/-- C3 witness: a registered grouped client at (2,2) — the first delete
reports true, the second false. -/
theorem handleDelete_removes_and_reports_witness :
    (handleDelete (ClientActorState.mk [(⟨2, 2⟩, ClientRecord.default)]
      ⟨[(⟨2, 2⟩, 7)]⟩) ⟨2, 2⟩).1 = true ∧
    (handleDelete (handleDelete (ClientActorState.mk [(⟨2, 2⟩, ClientRecord.default)]
      ⟨[(⟨2, 2⟩, 7)]⟩) ⟨2, 2⟩).2 ⟨2, 2⟩).1 = false := by
  have h := handleDelete_removes_and_reports
    (ClientActorState.mk [(⟨2, 2⟩, ClientRecord.default)] ⟨[(⟨2, 2⟩, 7)]⟩) ⟨2, 2⟩
    (by decide) (by decide)
  exact ⟨h.1, h.2.2.2.1⟩

/-- C5: the handshake deadline constant is 10 s; every failing or
timed-out run ends with the client absent from the registry; every
successful run leaves the client Connected carrying both SRTP sessions
derived by `get_srtp`. -/
theorem drive_handshake_deadline (st : ClientActorState) (addr : SocketAddr)
    (handshake : List Nat) :
    handshakeTimeoutSecs = 10 ∧
    (connect handshake AcceptOutcome.timeout).2 = Except.error IoErrorKind.TimedOut ∧
    (connect handshake AcceptOutcome.handshakeError).2 =
      Except.error IoErrorKind.ConnectionAborted ∧
    (∀ outcome, (∃ e, (connect handshake outcome).2 = Except.error e) →
      alGet (dtlsNewStep st addr handshake outcome).client_storage addr = none) ∧
    (∀ ssl r, alGet st.client_storage addr = some r →
      alGet (dtlsNewStep st addr handshake (AcceptOutcome.success ssl)).client_storage
        addr = some ⟨ClientState.Connected (get_srtp ssl).1 (get_srtp ssl).2, r.media⟩) := by
  refine ⟨rfl, rfl, rfl, ?_, ?_⟩
  · rintro outcome ⟨e, he⟩
    cases hg : alGet st.client_storage addr with
    | none => simp [dtlsNewStep, he, handleDelete, hg]
    | some r =>
        simp only [dtlsNewStep, he]
        simp [handleDelete, hg, GroupRouter.remove_client]
        exact alGet_alRemove_self _ _
  · intro ssl r hr
    exact alGet_alMapAt_self st.client_storage addr
      (fun r => (⟨ClientState.Connected (get_srtp ssl).1 (get_srtp ssl).2, r.media⟩ :
        ClientRecord)) r hr

/-- C5 witness: a registered client at (1,1) — a timed-out run deletes
it, a successful run with a concrete exporter leaves it Connected with
both sessions. -/
theorem drive_handshake_deadline_witness :
    alGet (dtlsNewStep (ClientActorState.mk [(⟨1, 1⟩, ClientRecord.default)] ⟨[]⟩)
      ⟨1, 1⟩ [20] AcceptOutcome.timeout).client_storage ⟨1, 1⟩ = none ∧
    alGet (dtlsNewStep (ClientActorState.mk [(⟨1, 1⟩, ClientRecord.default)] ⟨[]⟩)
      ⟨1, 1⟩ [20] (AcceptOutcome.success ⟨fun _ _ n => List.replicate n 0⟩)).client_storage
      ⟨1, 1⟩ =
      some ⟨ClientState.Connected
        (get_srtp ⟨fun _ _ n => List.replicate n 0⟩).1
        (get_srtp ⟨fun _ _ n => List.replicate n 0⟩).2, ClientRecord.default.media⟩ := by
  have h := drive_handshake_deadline
    (ClientActorState.mk [(⟨1, 1⟩, ClientRecord.default)] ⟨[]⟩) ⟨1, 1⟩ [20]
  exact ⟨h.2.2.2.1 AcceptOutcome.timeout ⟨IoErrorKind.TimedOut, rfl⟩,
    h.2.2.2.2 ⟨fun _ _ n => List.replicate n 0⟩ ClientRecord.default rfl⟩

/-- C7: the post-handshake read deadline constant is 10 ms; a read that
returns 0 bytes deletes the client; an elapsed deadline (the `none`
outcome, surfacing as TimedOut) deletes nothing and leaves the actor
state unchanged. -/
theorem post_handshake_read (st : ClientActorState) (addr : SocketAddr) :
    postHandshakeTimeoutMillis = 10 ∧
    extract_result none = Except.error IoErrorKind.TimedOut ∧
    (∀ outcome, extract_result outcome = Except.ok 0 →
      alGet (dtlsConnectedStep st addr outcome).client_storage addr = none) ∧
    dtlsConnectedStep st addr none = st := by
  refine ⟨rfl, rfl, ?_, rfl⟩
  intro outcome h
  cases hg : alGet st.client_storage addr with
  | none => simp [dtlsConnectedStep, h, handleDelete, hg]
  | some r =>
      simp only [dtlsConnectedStep, h]
      simp [handleDelete, hg, GroupRouter.remove_client]
      exact alGet_alRemove_self _ _

/-- C7 witness: a registered client at (3,3) — a zero-byte read deletes
it, an elapsed deadline leaves the state untouched. -/
theorem post_handshake_read_witness :
    alGet (dtlsConnectedStep (ClientActorState.mk [(⟨3, 3⟩, ClientRecord.default)] ⟨[]⟩)
      ⟨3, 3⟩ (some (Except.ok 0))).client_storage ⟨3, 3⟩ = none ∧
    dtlsConnectedStep (ClientActorState.mk [(⟨3, 3⟩, ClientRecord.default)] ⟨[]⟩)
      ⟨3, 3⟩ none = ClientActorState.mk [(⟨3, 3⟩, ClientRecord.default)] ⟨[]⟩ := by
  have h := post_handshake_read
    (ClientActorState.mk [(⟨3, 3⟩, ClientRecord.default)] ⟨[]⟩) ⟨3, 3⟩
  exact ⟨h.2.2.1 (some (Except.ok 0)) rfl, h.2.2.2⟩

/-- C8: reads from the duplex channel are message-preserving: a buffer
shorter than the next queued datagram makes `poll_read` fail with
UnexpectedEof and the buffer keeps its previous contents; otherwise the
call returns the datagram's length, the datagram sits in the buffer's
prefix, and the buffer keeps its length. -/
theorem poll_read_message_preserving (r : IncomingReader) (buf message : List Nat)
    (rest : List (List Nat)) (hq : r.queue = message :: rest) :
    (buf.length < message.length →
      poll_read r buf =
        (Poll.ready (Except.error IoErrorKind.UnexpectedEof, buf), ⟨rest, r.closed⟩)) ∧
    (message.length ≤ buf.length →
      poll_read r buf =
        (Poll.ready (Except.ok message.length, message ++ buf.drop message.length),
          ⟨rest, r.closed⟩) ∧
      (message ++ buf.drop message.length).take message.length = message ∧
      (message ++ buf.drop message.length).length = buf.length) := by
  obtain ⟨queue, closed⟩ := r
  simp only at hq
  subst hq
  constructor
  · intro h
    simp [poll_read, h]
  · intro h
    refine ⟨?_, ?_, ?_⟩
    · simp [poll_read, Nat.not_lt.mpr h]
    · exact List.take_left _ _
    · simp [List.length_append, List.length_drop]
      omega

/-- C8 witness: with datagram [1,2,3] queued, a 2-byte buffer fails with
UnexpectedEof and keeps its contents, while a 4-byte buffer receives
the whole datagram in its prefix. -/
theorem poll_read_message_preserving_witness :
    poll_read ⟨[[1, 2, 3]], false⟩ [7, 7] =
      (Poll.ready (Except.error IoErrorKind.UnexpectedEof, [7, 7]), ⟨[], false⟩) ∧
    poll_read ⟨[[1, 2, 3]], false⟩ [9, 9, 9, 9] =
      (Poll.ready (Except.ok 3, [1, 2, 3, 9]), ⟨[], false⟩) := by
  have h1 := (poll_read_message_preserving ⟨[[1, 2, 3]], false⟩ [7, 7] [1, 2, 3] []
    rfl).1 (by decide)
  have h2 := (poll_read_message_preserving ⟨[[1, 2, 3]], false⟩ [9, 9, 9, 9] [1, 2, 3] []
    rfl).2 (by decide)
  exact ⟨h1, h2.1⟩

/-- C9: `connect` pushes the initial DTLS datagram (the ClientHello)
into the incoming channel strictly before the TLS accept on the stream
begins, for every handshake payload and every outcome. -/
theorem connect_pushes_before_accept (handshake : List Nat) (outcome : AcceptOutcome) :
    ∃ i j, i < j ∧
      (connect handshake outcome).1.get? i = some (ConnectEvent.sendIncoming handshake) ∧
      (connect handshake outcome).1.get? j = some ConnectEvent.acceptBegin ∧
      ∀ k, (connect handshake outcome).1.get? k = some ConnectEvent.acceptBegin → i < k := by
  cases outcome
  all_goals
    refine ⟨0, 1, Nat.zero_lt_one, rfl, rfl, fun k hk => ?_⟩
    cases k with
    | zero => simp [connect] at hk
    | succ n => exact Nat.succ_pos n

/-- C6: when the source codec resolves, the RTP fan-out's destination
map contains a group member exactly when the member is registered, has
a media table, and that table maps the source packet's codec name to a
payload type — members lacking the codec (or any media table) are
skipped, every other member is kept with its rewritten payload byte. -/
theorem rtp_destination_filter
    (storage : List (SocketAddr × ClientRecord)) (groups : GroupRouter)
    (addr : SocketAddr) (message : List Nat) (dests : List SocketAddr)
    (marker : Bool) (name : String)
    (hd : groups.get_addressess addr = some dests)
    (hc : sourceCodec storage addr message = some (marker, name)) :
    ∃ out, rtpDestinations storage groups addr message = some out ∧
      ∀ d p, ((d, p) ∈ out ↔
        (d ∈ dests ∧ ∃ cr m pt, alGet storage d = some cr ∧ cr.media = some m ∧
          m.get_id name = some pt ∧ p = calculate_payload marker pt)) := by
  refine ⟨dests.filterMap fun g_addr =>
      (alGet storage g_addr).bind fun cr =>
        cr.media.bind fun media =>
          (sourceCodec storage addr message).bind fun codec =>
            (media.get_id codec.2).map fun new_payload =>
              (g_addr, calculate_payload codec.1 new_payload), ?_, ?_⟩
  · simp [rtpDestinations, hd]
  · intro d p
    simp only [List.mem_filterMap]
    constructor
    · rintro ⟨a', ha', hf⟩
      simp only [Option.bind_eq_some, Option.map_eq_some'] at hf
      obtain ⟨cr, hcr, m, hm, codec, hcodec, pt, hid, heq⟩ := hf
      rw [hc] at hcodec
      obtain rfl := Option.some.inj hcodec
      obtain ⟨rfl, rfl⟩ := Prod.mk.injEq .. |>.mp heq
      exact ⟨ha', cr, m, pt, hcr, hm, hid, rfl⟩
    · rintro ⟨hdmem, cr, m, pt, hcr, hm, hid, rfl⟩
      refine ⟨d, hdmem, ?_⟩
      simp only [Option.bind_eq_some, Option.map_eq_some']
      exact ⟨cr, hcr, m, hm, (marker, name), hc, pt, hid, rfl⟩

/-- C6 witness: source (0,0) negotiated opus=111 and sends a marked RTP
packet with payload type 111; group member (1,1) negotiated opus=96 and
appears in the destination map with the rewritten byte, while member
(2,2), whose table lacks opus, is skipped. -/
theorem rtp_destination_filter_witness :
    ∃ out,
      rtpDestinations
        [(⟨0, 0⟩, ⟨ClientState.New, some (Media.mk [(111, "opus")])⟩),
         (⟨1, 1⟩, ⟨ClientState.New, some (Media.mk [(96, "opus")])⟩),
         (⟨2, 2⟩, ⟨ClientState.New, some (Media.mk [(97, "vp8")])⟩)]
        (GroupRouter.mk [(⟨0, 0⟩, 7), (⟨1, 1⟩, 7), (⟨2, 2⟩, 7)])
        ⟨0, 0⟩ [128, 239, 0, 0, 0, 0, 0, 0, 0, 0, 0, 0] = some out ∧
      ((⟨1, 1⟩ : SocketAddr), calculate_payload true 96) ∈ out ∧
      ∀ p, ((⟨2, 2⟩ : SocketAddr), p) ∉ out := by
  obtain ⟨out, hout, hiff⟩ := rtp_destination_filter
    ([(⟨0, 0⟩, ⟨ClientState.New, some (Media.mk [(111, "opus")])⟩),
      (⟨1, 1⟩, ⟨ClientState.New, some (Media.mk [(96, "opus")])⟩),
      (⟨2, 2⟩, ⟨ClientState.New, some (Media.mk [(97, "vp8")])⟩)] :
      List (SocketAddr × ClientRecord))
    (GroupRouter.mk [(⟨0, 0⟩, 7), (⟨1, 1⟩, 7), (⟨2, 2⟩, 7)])
    ⟨0, 0⟩ [128, 239, 0, 0, 0, 0, 0, 0, 0, 0, 0, 0]
    ([⟨1, 1⟩, ⟨2, 2⟩] : List SocketAddr) true "opus"
    (by decide) (by decide)
  refine ⟨out, hout, ?_, ?_⟩
  · exact (hiff ⟨1, 1⟩ (calculate_payload true 96)).mpr
      ⟨by decide, ⟨ClientState.New, some (Media.mk [(96, "opus")])⟩,
        Media.mk [(96, "opus")], 96, by decide, rfl, by decide, rfl⟩
  · intro p hp
    obtain ⟨-, cr, m, pt, hcr, hm, hid, -⟩ := (hiff ⟨2, 2⟩ p).mp hp
    have h22 : alGet
        ([(⟨0, 0⟩, ⟨ClientState.New, some (Media.mk [(111, "opus")])⟩),
          (⟨1, 1⟩, ⟨ClientState.New, some (Media.mk [(96, "opus")])⟩),
          (⟨2, 2⟩, ⟨ClientState.New, some (Media.mk [(97, "vp8")])⟩)] :
          List (SocketAddr × ClientRecord))
        (⟨2, 2⟩ : SocketAddr) =
        some ⟨ClientState.New, some (Media.mk [(97, "vp8")])⟩ := by decide
    rw [h22] at hcr
    obtain rfl := Option.some.inj hcr
    simp only at hm
    obtain rfl := Option.some.inj hm
    have hno : (Media.mk [(97, "vp8")]).get_id "opus" = none := by decide
    rw [hno] at hid
    exact Option.noConfusion hid

end RsStreamer
